import Mathlib

/-!
Verification of the MSTDCode firmware corpus: the load-cell signal
conditioner, the BLE wire formats and their parsers, the dual-role
bridge forwarding logic, the de-duplicating polling relay, the
central-role negotiation logic, and the motor command handler.

Floating-point arithmetic of the sketches is embedded over the
rationals; the claims settled here concern branch structure, exact
constants and string formats, none of which depend on rounding of
binary floats at the inputs used.
-/

namespace MSTD

/-! ## Signal conditioner (Force_Sensor_NRF.ino, per-sample update) -/

/-- Dead zone constant shared by Force_Sensor_NRF.ino and part_006
(both define `DEAD_ZONE = 10.0f`). -/
def DEAD_ZONE : ℚ := 10

/-- Baseline follow rate shared by both conditioner variants
(`BASELINE_ALPHA = 0.90f`). -/
def BASELINE_ALPHA : ℚ := 9 / 10

/-- Conditioner state of Force_Sensor_NRF.ino: the running zero
baseline `baselineOffset` and the last published value
`lastValidReading` (what gets transmitted). -/
structure NrfState where
  baselineOffset : ℚ
  lastValidReading : ℚ
  deriving Repr, DecidableEq

/-- Clamp applied by Force_Sensor_NRF.ino in the above-dead-zone
branch: negative values become 0 (the non-finite guard of the source
is vacuous over rationals), then values of magnitude below 0.02
become 0. A function of the delta alone. -/
def nrfClamp (d : ℚ) : ℚ :=
  let d1 := if d < 0 then 0 else d
  if |d1| < 2 / 100 then 0 else d1

/-- Per-sample update of Force_Sensor_NRF.ino `loop` (lines 262-280):
`delta = raw - baselineOffset`; inside the dead zone the baseline
follows `raw` and the display is 0; outside, the display is the
clamped delta and the baseline is left unchanged.  `lastValidReading`
of the result is the `displayLbs` of this step. -/
def nrfStep (st : NrfState) (raw : ℚ) : NrfState :=
  let delta := raw - st.baselineOffset
  if |delta| ≤ DEAD_ZONE then
    { baselineOffset := BASELINE_ALPHA * st.baselineOffset + (1 - BASELINE_ALPHA) * raw
      lastValidReading := 0 }
  else
    { baselineOffset := st.baselineOffset
      lastValidReading := nrfClamp delta }

/-- Run the Force_Sensor_NRF conditioner over a sample list, returning
the trace of states (one per sample, in order). -/
def nrfTrace (st : NrfState) : List ℚ → List NrfState
  | [] => []
  | r :: rs =>
    let st1 := nrfStep st r
    st1 :: nrfTrace st1 rs

/-! ## Signal conditioner (part_006, raw-threshold variant) -/

/-- Per-sample update of part_006 `loop` (lines 83-103): the branch is
keyed on `|raw| <= DEAD_ZONE` (the raw value itself, not the delta).
Inside the band the baseline follows raw and the shown weight is 0;
outside, the shown weight is `raw - baselineOffset` with a 0.05
noise clamp and the baseline is unchanged.  Result: (new baseline,
shown weight). -/
def p6Step (b : ℚ) (raw : ℚ) : ℚ × ℚ :=
  if |raw| ≤ DEAD_ZONE then
    (BASELINE_ALPHA * b + (1 - BASELINE_ALPHA) * raw, 0)
  else
    let w := raw - b
    (b, if |w| < 5 / 100 then 0 else w)

/-- Trace of the part_006 conditioner: list of (baseline after the
step, weight shown at the step). -/
def p6Trace (b : ℚ) : List ℚ → List (ℚ × ℚ)
  | [] => []
  | r :: rs =>
    let s := p6Step b r
    s :: p6Trace s.1 rs

/-- Modelled from the spec: the dead-zone behaviour the claim
describes — every step shows 0 and the baseline moves to
`alpha * b + (1 - alpha) * raw`.  Compared with `p6Trace`. -/
def specDeadZoneTrace (b : ℚ) : List ℚ → List (ℚ × ℚ)
  | [] => []
  | r :: rs =>
    let b1 := BASELINE_ALPHA * b + (1 - BASELINE_ALPHA) * r
    (b1, 0) :: specDeadZoneTrace b1 rs

/-- Baseline reached by the part_006 conditioner after a sample list
(used to exhibit reachable states). -/
def p6RunBaseline (b : ℚ) : List ℚ → ℚ
  | [] => b
  | r :: rs => p6RunBaseline (p6Step b r).1 rs

/-- Helper: a step on a sample inside the dead zone follows the
baseline and shows 0. -/
theorem p6Step_deadZone (b r : ℚ) (hr : |r| ≤ DEAD_ZONE) :
    p6Step b r = (BASELINE_ALPHA * b + (1 - BASELINE_ALPHA) * r, 0) := by
  unfold p6Step
  rw [if_pos hr]

/-- Helper: on a sample list held within the dead zone, the part_006
conditioner agrees with the spec trace from any starting baseline. -/
theorem p6Trace_eq_spec (raws : List ℚ) :
    ∀ b : ℚ, (∀ r ∈ raws, |r| ≤ DEAD_ZONE) →
      p6Trace b raws = specDeadZoneTrace b raws := by
  induction raws with
  | nil => intro b _; rfl
  | cons r rs ih =>
    intro b h
    have hr : |r| ≤ DEAD_ZONE := h r (List.mem_cons_self r rs)
    have hrs : ∀ x ∈ rs, |x| ≤ DEAD_ZONE := fun x hx => h x (List.mem_cons_of_mem r hx)
    simp only [p6Trace, specDeadZoneTrace, p6Step_deadZone b r hr, ih _ hrs]

/-- C1 (amended): for the raw-threshold conditioner of part_006, any
sample sequence lying within `[-deadZone, deadZone]`, started from
baseline 0, shows weight exactly 0 at every step and moves the
baseline to `alpha * b + (1 - alpha) * raw` at every step — i.e. the
trace coincides with the trace the spec describes. -/
theorem C1_p6_deadZone_trace (raws : List ℚ)
    (h : ∀ r ∈ raws, |r| ≤ DEAD_ZONE) :
    p6Trace 0 raws = specDeadZoneTrace 0 raws :=
  p6Trace_eq_spec raws 0 h

/-- Witness for C1 at the spec scenario `[2, 3, 2, 2]`. -/
theorem C1_p6_deadZone_trace_witness :
    (∀ r ∈ [(2 : ℚ), 3, 2, 2], |r| ≤ DEAD_ZONE) ∧
    p6Trace 0 [2, 3, 2, 2] = specDeadZoneTrace 0 [2, 3, 2, 2] :=
  ⟨by norm_num [DEAD_ZONE], C1_p6_deadZone_trace [2, 3, 2, 2] (by norm_num [DEAD_ZONE])⟩

/-- Counterexample to C1 as stated: for the delta-threshold
conditioner of Force_Sensor_NRF (cited by the claim), the samples
`[-10, 10]` both lie within `[-deadZone, deadZone]`, yet the second
step reports `displayValue = 11`, not 0 (and does not update the
baseline). -/
theorem C1_nrf_counterexample :
    (∀ r ∈ [(-10 : ℚ), 10], |r| ≤ DEAD_ZONE) ∧
    (nrfTrace ⟨0, 0⟩ [-10, 10]).map NrfState.lastValidReading = [0, 11] := by
  constructor
  · norm_num [DEAD_ZONE]
  · norm_num [nrfTrace, nrfStep, nrfClamp, DEAD_ZONE, BASELINE_ALPHA]

/-- C2 (amended): for the delta-threshold conditioner of
Force_Sensor_NRF, every raw sample with `|raw - baselineOffset| >
deadZone` yields a display value equal to `raw - baselineOffset` up
to the documented clamps (negatives and magnitudes below 0.02 become
0), as a function of that delta alone — hence independent of any
earlier sample history. -/
theorem C2_nrf_aboveDeadZone (st : NrfState) (raw : ℚ)
    (h : DEAD_ZONE < |raw - st.baselineOffset|) :
    (nrfStep st raw).lastValidReading = nrfClamp (raw - st.baselineOffset) := by
  simp only [nrfStep, if_neg (not_le.mpr h)]

/-- Witness for C2 at the spec scenario: baseline 3.0, raw 18,
dead zone 10 gives display value 15.0. -/
theorem C2_nrf_aboveDeadZone_witness :
    (nrfStep ⟨3, 0⟩ 18).lastValidReading = 15 :=
  (C2_nrf_aboveDeadZone ⟨3, 0⟩ 18 (by norm_num [DEAD_ZONE])).trans
    (by norm_num [nrfClamp])

/-- Counterexample to C2 as stated over the part_006 conditioner
(cited by the claim): from the reachable baseline obtained by feeding
eight samples of -10 from baseline 0, the sample 5 satisfies
`|raw - baselineOffset| > deadZone`, yet the shown weight is 0 even
though the delta is positive and above every documented clamp
threshold. -/
theorem C2_p6_counterexample :
    DEAD_ZONE < |5 - p6RunBaseline 0 (List.replicate 8 (-10))| ∧
    (p6Step (p6RunBaseline 0 (List.replicate 8 (-10))) 5).2 = 0 ∧
    5 / 100 < 5 - p6RunBaseline 0 (List.replicate 8 (-10)) := by
  have hb : p6RunBaseline 0 (List.replicate 8 (-10)) = -(56953279 / 10000000) := by
    norm_num [p6RunBaseline, p6Step, DEAD_ZONE, BASELINE_ALPHA, List.replicate]
  rw [hb]
  norm_num [p6Step, DEAD_ZONE, BASELINE_ALPHA, abs_of_pos]

/-! ## Decimal wire formats (snprintf) and their receiver-side parsing -/

/-- Numeric value of an ASCII digit character (`c - 48`), as used by
`strtoul` and `atof` when consuming digit runs. -/
def digitVal (c : Char) : Nat := c.toNat - 48

/-- Value of a most-significant-first digit-character run. -/
def parseNatDigits (cs : List Char) : Nat :=
  cs.foldl (fun a c => 10 * a + digitVal c) 0

/-- Model of `strtoul(buf, NULL, 10)` on the non-negative payloads in
play: consume the leading digit run and evaluate it (sign and
whitespace handling of the C function are not exercised by these
payloads). -/
def strtoulM (cs : List Char) : Nat :=
  parseNatDigits (cs.takeWhile Char.isDigit)

/-- Decimal rendering of a Nat, as `snprintf` `%lu` does. -/
def fmtNat (n : Nat) : List Char :=
  if n = 0 then ['0'] else ((Nat.digits 10 n).reverse.map Nat.digitChar)

/-- Rendering of `snprintf` `%.1f`: optional sign, integer digits,
dot, one digit.  The value is rounded to tenths; the tie-breaking
mode of the C library is irrelevant to every claim below (the inputs
are exact tenths or sign/digit-count questions). -/
def fmt1f (q : ℚ) : List Char :=
  let t := (round (|q| * 10)).toNat
  (if q < 0 then ['-'] else []) ++ fmtNat (t / 10) ++ '.' :: [Nat.digitChar (t % 10)]

/-- Rendering of `snprintf` `%.2f` (used by part_010): optional sign,
integer digits, dot, two digits. -/
def fmt2f (q : ℚ) : List Char :=
  let t := (round (|q| * 100)).toNat
  (if q < 0 then ['-'] else []) ++ fmtNat (t / 100) ++
    '.' :: [Nat.digitChar (t / 10 % 10), Nat.digitChar (t % 10)]

/-- Split at the first `'|'`, as `strchr(buf, '|')` followed by
truncation does in the receiving sketches; `none` when the byte is
absent. -/
def splitBar : List Char → Option (List Char × List Char)
  | [] => none
  | c :: cs =>
    if c = '|' then some ([], cs)
    else (splitBar cs).map (fun p => (c :: p.1, p.2))

/-- Fractional continuation of `atof`: a digit run after a leading
dot contributes its value scaled down; anything else contributes 0. -/
def atofFrac : List Char → ℚ
  | '.' :: fs =>
    (parseNatDigits (fs.takeWhile Char.isDigit) : ℚ) /
      10 ^ (fs.takeWhile Char.isDigit).length
  | _ => 0

/-- Magnitude part of `atof`: integer digit run, then an optional
fractional digit run after a dot. -/
def atofMag (cs : List Char) : ℚ :=
  (parseNatDigits (cs.takeWhile Char.isDigit) : ℚ) +
    atofFrac (cs.drop (cs.takeWhile Char.isDigit).length)

/-- Model of `atof` on the decimal payloads in play: optional sign
then a decimal magnitude (exponent and hex forms of the C function
are never transmitted by these sketches). -/
def atofM (cs : List Char) : ℚ :=
  if cs.head? = some '-' then -(atofMag cs.tail)
  else if cs.head? = some '+' then atofMag cs.tail
  else atofMag cs

/-- Helper: digit characters decode back to their value. -/
theorem digitVal_digitChar (d : Nat) (h : d < 10) :
    digitVal (Nat.digitChar d) = d := by
  interval_cases d <;> rfl

/-- Helper: digit characters satisfy `isDigit`. -/
theorem isDigit_digitChar (d : Nat) (h : d < 10) :
    (Nat.digitChar d).isDigit = true := by
  interval_cases d <;> rfl

/-- Helper: most-significant-first accumulation over the reversed
little-endian digit list recovers `Nat.ofDigits`. -/
theorem foldl_reverse_ofDigits (l : List ℕ) :
    (l.reverse).foldl (fun a d => 10 * a + d) 0 = Nat.ofDigits 10 l := by
  induction l with
  | nil => rfl
  | cons d tl ih =>
    rw [List.reverse_cons, List.foldl_append, ih, Nat.ofDigits_cons]
    simp [List.foldl]
    ring

/-- Helper: parsing the `%lu` rendering of `n` gives back `n`. -/
theorem parseNatDigits_fmtNat (n : ℕ) : parseNatDigits (fmtNat n) = n := by
  by_cases h : n = 0
  · subst h; rfl
  · rw [fmtNat, if_neg h, parseNatDigits, List.foldl_map]
    have he : ((Nat.digits 10 n).reverse).foldl
          (fun a d => 10 * a + digitVal (Nat.digitChar d)) 0
        = ((Nat.digits 10 n).reverse).foldl (fun a d => 10 * a + d) 0 := by
      apply List.foldl_ext
      intro a d hd
      rw [digitVal_digitChar d (Nat.digits_lt_base (by norm_num) (List.mem_reverse.mp hd))]
    rw [he, foldl_reverse_ofDigits, Nat.ofDigits_digits]

/-- Helper: every character of `fmtNat n` is a digit. -/
theorem fmtNat_isDigit (n : ℕ) : ∀ c ∈ fmtNat n, c.isDigit = true := by
  intro c hc
  by_cases h : n = 0
  · subst h
    simp only [fmtNat, if_pos] at hc
    simp only [List.mem_singleton] at hc
    subst hc; rfl
  · rw [fmtNat, if_neg h] at hc
    obtain ⟨d, hd, rfl⟩ := List.mem_map.mp hc
    exact isDigit_digitChar d (Nat.digits_lt_base (by norm_num) (List.mem_reverse.mp hd))

/-- Helper: `fmtNat` never renders the empty string. -/
theorem fmtNat_ne_nil (n : ℕ) : fmtNat n ≠ [] := by
  by_cases h : n = 0
  · subst h; simp [fmtNat]
  · rw [fmtNat, if_neg h]
    simp [Nat.digits_ne_nil_iff_ne_zero, h]

/-- Helper: a take-while over a run it accepts, stopped by `x`. -/
theorem takeWhile_all_append (p : Char → Bool) (l₁ : List Char) (x : Char)
    (l₂ : List Char) (h₁ : ∀ c ∈ l₁, p c = true) (hx : p x = false) :
    ((l₁ ++ x :: l₂).takeWhile p) = l₁ := by
  induction l₁ with
  | nil => simp [List.takeWhile, hx]
  | cons c cs ih =>
    have hc : p c = true := h₁ c (List.mem_cons_self c cs)
    simp only [List.cons_append, List.takeWhile, hc, List.append_eq]
    rw [ih (fun d hd => h₁ d (List.mem_cons_of_mem c hd))]

/-- Helper: a take-while that accepts the whole list keeps it. -/
theorem takeWhile_all (p : Char → Bool) (l : List Char)
    (h : ∀ c ∈ l, p c = true) : l.takeWhile p = l := by
  induction l with
  | nil => rfl
  | cons c cs ih =>
    simp only [List.takeWhile, h c (List.mem_cons_self c cs)]
    rw [ih (fun d hd => h d (List.mem_cons_of_mem c hd))]

/-- Helper: splitting at the bar undoes gluing with a bar, provided
the left half is bar-free. -/
theorem splitBar_append (l r : List Char) (h : '|' ∉ l) :
    splitBar (l ++ '|' :: r) = some (l, r) := by
  induction l with
  | nil => simp [splitBar]
  | cons c cs ih =>
    have hc : c ≠ '|' := fun hc => h (hc ▸ List.mem_cons_self c cs)
    simp only [List.cons_append, splitBar, if_neg hc, List.append_eq]
    rw [ih (fun hm => h (List.mem_cons_of_mem c hm))]
    rfl

/-- Helper: the bar is absent exactly when `splitBar` fails. -/
theorem splitBar_eq_none_iff (l : List Char) :
    splitBar l = none ↔ '|' ∉ l := by
  induction l with
  | nil => simp [splitBar]
  | cons c cs ih =>
    by_cases hc : c = '|'
    · subst hc; simp [splitBar]
    · simp only [splitBar, if_neg hc, Option.map_eq_none', ih, List.mem_cons]
      constructor
      · intro h1 h2
        rcases h2 with h2 | h2
        · exact hc h2.symm
        · exact h1 h2
      · intro h1 h2
        exact h1 (Or.inr h2)

/-- Outcome of the MAIN receiver on one force payload (part_007 loop,
lines 139-153): a parsed CSV row when a `'|'` is present, otherwise
the `#WARN raw:` serial line. -/
inductive RxAction where
  | csv (ms : Nat) (pounds : ℚ)
  | warn (raw : List Char)
  deriving Repr, DecidableEq

/-- MAIN receiver handling of a received force payload: split at the
first `'|'`; on success parse the left part with `strtoul` and the
right with `atof` and emit the CSV row; otherwise emit the warning. -/
def mainHandleForce (buf : List Char) : RxAction :=
  match splitBar buf with
  | some (l, r) => .csv (strtoulM l) (atofM r)
  | none => .warn buf

/-- Helper: `strtoul` on the `%lu` rendering of `n` gives back `n`. -/
theorem strtoulM_fmtNat (n : ℕ) : strtoulM (fmtNat n) = n := by
  rw [strtoulM, takeWhile_all Char.isDigit (fmtNat n) (fmtNat_isDigit n),
    parseNatDigits_fmtNat]

/-- Helper: `atof`-magnitude of digits, dot and one digit. -/
theorem atofMag_fmt (a d : ℕ) (hd : d < 10) :
    atofMag (fmtNat a ++ '.' :: [Nat.digitChar d]) = (a : ℚ) + (d : ℚ) / 10 := by
  have hip : (fmtNat a ++ '.' :: [Nat.digitChar d]).takeWhile Char.isDigit = fmtNat a :=
    takeWhile_all_append _ _ _ _ (fmtNat_isDigit a) rfl
  rw [atofMag, hip, List.drop_left, parseNatDigits_fmtNat]
  have hfd : ([Nat.digitChar d]).takeWhile Char.isDigit = [Nat.digitChar d] := by
    simp [List.takeWhile, isDigit_digitChar d hd]
  rw [atofFrac, hfd]
  simp [parseNatDigits, List.foldl, digitVal_digitChar d hd]

/-- Helper: lists led by a `fmtNat` rendering start with a digit. -/
theorem fmtNat_append_head (n : ℕ) (l : List Char) :
    ∃ c cs, fmtNat n ++ l = c :: cs ∧ c.isDigit = true := by
  obtain ⟨c, cs, hc⟩ := List.exists_cons_of_ne_nil (fmtNat_ne_nil n)
  refine ⟨c, cs ++ l, by rw [hc]; rfl, ?_⟩
  exact fmtNat_isDigit n c (hc ▸ List.mem_cons_self c cs)

/-- Helper: `atof` on a digit-led string skips the sign cases. -/
theorem atofM_digitLed (c : Char) (cs : List Char) (h : c.isDigit = true) :
    atofM (c :: cs) = atofMag (c :: cs) := by
  have h1 : c ≠ '-' := fun he => by rw [he] at h; exact absurd h (by decide)
  have h2 : c ≠ '+' := fun he => by rw [he] at h; exact absurd h (by decide)
  rw [atofM, if_neg (by simpa using h1), if_neg (by simpa using h2)]

/-- Helper: the `%.1f` rendering of an exact non-negative number of
tenths is its digits, a dot, and the tenths digit. -/
theorem fmt1f_tenths (t : ℕ) :
    fmt1f ((t : ℚ) / 10) = fmtNat (t / 10) ++ '.' :: [Nat.digitChar (t % 10)] := by
  have hq : (0 : ℚ) ≤ (t : ℚ) / 10 := by positivity
  have ht : (round (|(t : ℚ) / 10| * 10)).toNat = t := by
    rw [abs_of_nonneg hq, div_mul_cancel₀ _ (by norm_num : (10 : ℚ) ≠ 0),
      round_natCast, Int.toNat_natCast]
  rw [fmt1f, ht, if_neg (not_lt.mpr hq), List.nil_append]

/-- C3: formatting a millisecond count and a force of `t` tenths of a
pound as the sensor's `snprintf("%lu|%.1f")` does, then parsing the
payload with the receiver's split-at-bar, `strtoul`, `atof`
procedure, returns exactly the original pair. -/
theorem C3_roundTrip (ms t : ℕ) (hms : ms < 2 ^ 32) :
    mainHandleForce (fmtNat ms ++ '|' :: fmt1f ((t : ℚ) / 10)) =
      .csv ms ((t : ℚ) / 10) := by
  have hbar : '|' ∉ fmtNat ms :=
    fun hm => absurd (fmtNat_isDigit ms '|' hm) (by decide)
  rw [mainHandleForce, splitBar_append _ _ hbar]
  show RxAction.csv (strtoulM (fmtNat ms)) (atofM (fmt1f ((t : ℚ) / 10))) = _
  rw [strtoulM_fmtNat, fmt1f_tenths]
  obtain ⟨c, cs, hcons, hdig⟩ :=
    fmtNat_append_head (t / 10) ('.' :: [Nat.digitChar (t % 10)])
  rw [hcons, atofM_digitLed c cs hdig, ← hcons,
    atofMag_fmt (t / 10) (t % 10) (Nat.mod_lt t (by norm_num))]
  have harith : ((t / 10 : ℕ) : ℚ) + ((t % 10 : ℕ) : ℚ) / 10 = (t : ℚ) / 10 := by
    field_simp
    norm_cast
    omega
  rw [harith]

/-- Witness for C3 at the documented example payload `1234|15.3`. -/
theorem C3_roundTrip_witness :
    1234 < 2 ^ 32 ∧
    mainHandleForce (fmtNat 1234 ++ '|' :: fmt1f ((153 : ℚ) / 10)) =
      .csv 1234 ((153 : ℚ) / 10) :=
  ⟨by norm_num, C3_roundTrip 1234 153 (by norm_num)⟩

/-- C4: a received force payload with no bar byte makes the receiver
emit the warning action and no parsed CSV row; a CSV row arises only
from payloads that do contain a bar. -/
theorem C4_malformedReject (buf : List Char) :
    ('|' ∉ buf → mainHandleForce buf = .warn buf) ∧
    (∀ ms q, mainHandleForce buf = .csv ms q → '|' ∈ buf) := by
  constructor
  · intro h
    rw [mainHandleForce, (splitBar_eq_none_iff buf).mpr h]
  · intro ms q h
    by_contra hb
    rw [mainHandleForce, (splitBar_eq_none_iff buf).mpr hb] at h
    cases h

/-- Witness for C4 at the spec scenario payload `not-a-number`. -/
theorem C4_malformedReject_witness :
    '|' ∉ ("not-a-number".toList) ∧
    mainHandleForce ("not-a-number".toList) = .warn ("not-a-number".toList) :=
  ⟨by decide, (C4_malformedReject ("not-a-number".toList)).1 (by decide)⟩

/-! ## Central-role negotiation (GIGA2_Workstation, part_001, part_009) -/

/-- Environment outcome of the sub-steps of one negotiation attempt
against a name-matched device: whether `connect()`,
`discoverAttributes()`, characteristic resolution, `canSubscribe()`
and `subscribe()` succeed. -/
structure NegoOutcome where
  connectOk : Bool
  discoverOk : Bool
  charFound : Bool
  canSub : Bool
  subOk : Bool
  deriving Repr, DecidableEq

/-- Link status after one negotiation attempt: whether scanning is
active, whether the peer connection is up and whether the target
characteristic is subscribed. -/
structure LinkStatus where
  scanning : Bool
  connected : Bool
  subscribed : Bool
  deriving Repr, DecidableEq

/-- READY means connected with an active subscription. -/
def LinkStatus.ready (s : LinkStatus) : Bool := s.connected && s.subscribed

/-- Negotiation attempt of GIGA2_Workstation `loop` (lines 53-80):
scanning was stopped on the name match; a connect failure calls
`BLE.scan()` again; a discovery failure or a missing/unsubscribable
characteristic calls `disconnect()` but never restarts scanning; on
full success the link is subscribed (the `subscribe()` result is not
checked by this sketch). -/
def giga2Negotiate (o : NegoOutcome) : LinkStatus :=
  if !o.connectOk then ⟨true, false, false⟩
  else if !o.discoverOk then ⟨false, false, false⟩
  else if !(o.charFound && o.canSub) then ⟨false, false, false⟩
  else ⟨false, true, true⟩

/-- Negotiation attempt of part_009 `connectToNRF` (lines 138-183):
every failing sub-step disconnects when connected and calls
`BLE.scan()` before continuing the discovery loop. -/
def recvNegotiate (o : NegoOutcome) : LinkStatus :=
  if !o.connectOk then ⟨true, false, false⟩
  else if !o.discoverOk then ⟨true, false, false⟩
  else if !o.charFound then ⟨true, false, false⟩
  else if !(o.canSub && o.subOk) then ⟨true, false, false⟩
  else ⟨false, true, true⟩

/-- C5 evaluation at the failing input: when `connect()` succeeds and
`discoverAttributes()` fails, the GIGA2_Workstation central ends with
scanning stopped and the link not READY — stuck outside both
discovery and READY, against the claim — while the part_009 central
at the same outcome resumes scanning as the claim describes. -/
theorem C5_giga2_negotiationStuck :
    giga2Negotiate ⟨true, false, true, true, true⟩ = ⟨false, false, false⟩ ∧
    (giga2Negotiate ⟨true, false, true, true, true⟩).scanning = false ∧
    (giga2Negotiate ⟨true, false, true, true, true⟩).ready = false ∧
    (giga2Negotiate ⟨true, true, false, true, true⟩).scanning = false ∧
    (giga2Negotiate ⟨true, true, false, true, true⟩).ready = false ∧
    recvNegotiate ⟨true, false, true, true, true⟩ = ⟨true, false, false⟩ ∧
    recvNegotiate ⟨true, true, false, true, true⟩ = ⟨true, false, false⟩ ∧
    recvNegotiate ⟨true, true, true, false, true⟩ = ⟨true, false, false⟩ :=
  ⟨rfl, rfl, rfl, rfl, rfl, rfl, rfl, rfl⟩

/-! ## Dual-role bridge forwarding (GIGA2_Workstation loop) -/

/-- C-string content of the 50-byte forwarding buffer after receiving
a value `v`: `min(len, 49)` bytes are copied and a NUL terminator is
appended, so the forwarded string is the first at-most-49 bytes cut
at any embedded NUL. -/
def storedPayload (v : List ℕ) : List ℕ :=
  (v.take 49).takeWhile (fun b => b != 0)

/-- Bridge state: the staged forwarding buffer content and the
`newDataToForward` flag. -/
structure BridgeState where
  buffer : List ℕ
  newData : Bool
  deriving Repr, DecidableEq

/-- One tick of the bridge loop body (lines 84-101): the receive
section stages a fresh upstream value and sets the flag; the forward
section notifies the staged value and clears the flag only when a
downstream subscriber is present.  Returns the new state and the
notification, if any. -/
def bridgeTick (st : BridgeState) (upstream : Option (List ℕ)) (subscribed : Bool) :
    BridgeState × Option (List ℕ) :=
  let st1 := match upstream with
    | some v => ⟨storedPayload v, true⟩
    | none => st
  if st1.newData && subscribed then (⟨st1.buffer, false⟩, some st1.buffer)
  else (st1, none)

/-- Run of bridge ticks, collecting emitted notifications. -/
def bridgeRun (st : BridgeState) : List (Option (List ℕ) × Bool) → BridgeState × List (List ℕ)
  | [] => (st, [])
  | (u, s) :: rest =>
    let r1 := bridgeTick st u s
    let r2 := bridgeRun r1.1 rest
    (r2.1, r1.2.toList ++ r2.2)

/-- Helper: with no subscriber, a run of fresh upstream messages
notifies nothing and leaves exactly the latest message pending. -/
theorem bridgeRun_noSubscriber (msgs : List (List ℕ)) :
    ∀ st : BridgeState,
      (bridgeRun st (msgs.map fun m => (some m, false))).2 = [] ∧
      ∀ h : msgs ≠ [],
        (bridgeRun st (msgs.map fun m => (some m, false))).1 =
          ⟨storedPayload (msgs.getLast h), true⟩ := by
  induction msgs with
  | nil => exact fun st => ⟨rfl, fun h => absurd rfl h⟩
  | cons m rest ih =>
    intro st
    have htick : bridgeTick st (some m) false = (⟨storedPayload m, true⟩, none) := rfl
    cases rest with
    | nil => exact ⟨rfl, fun h => rfl⟩
    | cons r rest2 =>
      have hne : r :: rest2 ≠ [] := List.cons_ne_nil r rest2
      refine ⟨?_, ?_⟩
      · simp only [List.map, bridgeRun, htick, Option.toList, List.nil_append]
        exact (ih _).1
      · intro h
        rw [List.getLast_cons hne]
        simp only [List.map, bridgeRun, htick, Option.toList]
        exact (ih _).2 hne

/-- C6: whenever the bridge holds a newly received upstream message
and the downstream characteristic has no subscriber, the tick
notifies nothing; over any run without a subscriber no notification
is ever emitted and only the single latest received value stays
pending (earlier ones are overwritten, never queued). -/
theorem C6_noSubscriberDrop (st : BridgeState) (v : List ℕ)
    (msgs : List (List ℕ)) (h : msgs ≠ []) :
    (bridgeTick st (some v) false).2 = none ∧
    (bridgeTick st (some v) false).1 = ⟨storedPayload v, true⟩ ∧
    (bridgeRun st (msgs.map fun m => (some m, false))).2 = [] ∧
    (bridgeRun st (msgs.map fun m => (some m, false))).1 =
      ⟨storedPayload (msgs.getLast h), true⟩ :=
  ⟨rfl, rfl, (bridgeRun_noSubscriber msgs st).1, (bridgeRun_noSubscriber msgs st).2 h⟩

/-- Witness for C6 on two concrete upstream messages with no
subscriber: nothing is notified and only the second stays pending. -/
theorem C6_noSubscriberDrop_witness :
    (bridgeTick ⟨[], false⟩ (some [49, 50]) false).2 = none ∧
    (bridgeTick ⟨[], false⟩ (some [49, 50]) false).1 = ⟨storedPayload [49, 50], true⟩ ∧
    (bridgeRun ⟨[], false⟩ ([[49], [50, 51]].map fun m => (some m, false))).2 = [] ∧
    (bridgeRun ⟨[], false⟩ ([[49], [50, 51]].map fun m => (some m, false))).1 =
      ⟨storedPayload ([[49], [50, 51]].getLast (by decide)), true⟩ :=
  C6_noSubscriberDrop ⟨[], false⟩ [49, 50] [[49], [50, 51]] (by decide)

/-! ## De-duplicating polling relay (part_009, forward-only variant) -/

/-- Relay state: the previously forwarded message (the pair
`lastMsg`, `lastMsgLen` of the sketch, as the byte list it holds). -/
structure DedupState where
  lastMsg : List ℕ
  deriving Repr, DecidableEq

/-- One poll of the forward-only receiver (lines 420-440): a read of
`n` bytes is processed only when `n > 0`; it is forwarded, and
remembered, exactly when the length differs or `memcmp` over the
first `n` bytes differs.  Returns the new state and whether an
outbound notification was produced. -/
def dedupStep (st : DedupState) (buf : List ℕ) : DedupState × Bool :=
  if buf = [] then (st, false)
  else if buf.length = st.lastMsg.length ∧ buf = st.lastMsg.take buf.length then
    (st, false)
  else (⟨buf⟩, true)

/-- Run of polls, counting outbound notifications. -/
def dedupRun (st : DedupState) : List (List ℕ) → DedupState × ℕ
  | [] => (st, 0)
  | b :: bs =>
    let r1 := dedupStep st b
    let r2 := dedupRun r1.1 bs
    (r2.1, (if r1.2 then 1 else 0) + r2.2)

/-- Helper: the length-and-memcmp test is plain equality of the held
byte lists. -/
theorem dedup_test_iff (buf last : List ℕ) :
    (buf.length = last.length ∧ buf = last.take buf.length) ↔ buf = last := by
  constructor
  · rintro ⟨hl, he⟩
    rw [he, hl, List.take_length]
  · rintro rfl
    exact ⟨rfl, (List.take_length buf).symm⟩

/-- Helper: polling the remembered message again changes nothing and
notifies nothing. -/
theorem dedupStep_self (st : DedupState) (buf : List ℕ) (h : st.lastMsg = buf) :
    dedupStep st buf = (st, false) := by
  by_cases hb : buf = []
  · rw [dedupStep, if_pos hb]
  · rw [dedupStep, if_neg hb, if_pos ((dedup_test_iff buf st.lastMsg).mpr h.symm)]

/-- Helper: a run of identical polls from a state already holding the
message notifies nothing. -/
theorem dedupRun_same (buf : List ℕ) (k : ℕ) :
    ∀ st : DedupState, st.lastMsg = buf →
      (dedupRun st (List.replicate k buf)).2 = 0 := by
  induction k with
  | zero => intro st _; rfl
  | succ j ih =>
    intro st h
    simp only [List.replicate, dedupRun, dedupStep_self st buf h]
    simpa using ih st h

/-- C7: a non-empty polled payload produces an outbound notification
exactly when it differs (in length or bytes) from the previously
forwarded one; immediately re-polling the same payload never
notifies; and any run of `k` identical polls notifies at most once. -/
theorem C7_dedupIdempotent (st : DedupState) (buf : List ℕ) (k : ℕ)
    (h : buf ≠ []) :
    ((dedupStep st buf).2 = true ↔ buf ≠ st.lastMsg) ∧
    dedupStep (dedupStep st buf).1 buf = ((dedupStep st buf).1, false) ∧
    (dedupRun st (List.replicate k buf)).2 ≤ 1 := by
  have hlast : (dedupStep st buf).1.lastMsg = buf := by
    by_cases hc : buf.length = st.lastMsg.length ∧ buf = st.lastMsg.take buf.length
    · rw [dedupStep, if_neg h, if_pos hc]
      exact ((dedup_test_iff buf st.lastMsg).mp hc).symm
    · rw [dedupStep, if_neg h, if_neg hc]
  refine ⟨?_, dedupStep_self _ buf hlast, ?_⟩
  · by_cases hc : buf.length = st.lastMsg.length ∧ buf = st.lastMsg.take buf.length
    · rw [dedupStep, if_neg h, if_pos hc]
      simp [(dedup_test_iff buf st.lastMsg).mp hc]
    · rw [dedupStep, if_neg h, if_neg hc]
      exact ⟨fun _ he => hc ((dedup_test_iff buf st.lastMsg).mpr he), fun _ => rfl⟩
  · cases k with
    | zero => exact Nat.zero_le 1
    | succ j =>
      simp only [List.replicate, dedupRun]
      rw [dedupRun_same buf j (dedupStep st buf).1 hlast]
      split <;> omega

/-- Witness for C7: from the boot state (empty remembered message), a
one-byte payload notifies once and repeats are suppressed. -/
theorem C7_dedupIdempotent_witness :
    ((dedupStep ⟨[]⟩ [52]).2 = true ↔ [52] ≠ (DedupState.mk []).lastMsg) ∧
    dedupStep (dedupStep ⟨[]⟩ [52]).1 [52] = ((dedupStep ⟨[]⟩ [52]).1, false) ∧
    (dedupRun ⟨[]⟩ (List.replicate 3 [52])).2 ≤ 1 :=
  C7_dedupIdempotent ⟨[]⟩ [52] 3 (by decide)

/-! ## Bridge receive-buffer safety (GIGA2_Workstation receive section) -/

/-- The 50-byte forwarding buffer after one receive (lines 84-95 and
217-229): `len = min(reportedLen, 49)` bytes of the value are copied
to the front, a NUL is written at index `len`, and the later bytes of
the old buffer are untouched. -/
def giga2Receive (old v : List ℕ) (reportedLen : ℕ) : List ℕ :=
  v.take (min reportedLen 49) ++ 0 :: old.drop (min reportedLen 49 + 1)

/-- Helper: a list with a zero at index `n` has its leading nonzero
run no longer than `n`. -/
theorem takeWhile_length_le_of_zero (l : List ℕ) :
    ∀ n : ℕ, l.get? n = some 0 → (l.takeWhile (fun b => b != 0)).length ≤ n := by
  induction l with
  | nil => intro n hn; cases hn
  | cons c cs ih =>
    intro n hn
    cases n with
    | zero =>
      cases hn
      simp [List.takeWhile]
    | succ m =>
      rw [List.takeWhile]
      cases hc : (c != 0) with
      | false => exact Nat.zero_le _
      | true =>
        simpa using Nat.succ_le_succ (ih m hn)

/-- C10: for any reported length (49 and beyond included), the bridge
receive copies at most 49 bytes into the 50-byte buffer, writes the
NUL right after them at an index never exceeding 49, keeps the buffer
50 bytes long, and the forwarded C string is at most 49 bytes. -/
theorem C10_receiveBufferSafe (old v : List ℕ) (reportedLen : ℕ)
    (hold : old.length = 50) (hv : min reportedLen 49 ≤ v.length) :
    min reportedLen 49 ≤ 49 ∧
    (v.take (min reportedLen 49)).length ≤ 49 ∧
    (giga2Receive old v reportedLen).length = 50 ∧
    (giga2Receive old v reportedLen).get? (min reportedLen 49) = some 0 ∧
    ((giga2Receive old v reportedLen).takeWhile (fun b => b != 0)).length ≤ 49 := by
  have hlen : (v.take (min reportedLen 49)).length = min reportedLen 49 := by
    rw [List.length_take]
    omega
  have hmin : min reportedLen 49 ≤ 49 := Nat.min_le_right _ _
  have hget : (giga2Receive old v reportedLen).get? (min reportedLen 49) = some 0 := by
    rw [giga2Receive, List.get?_append_right (le_of_eq hlen), hlen]
    simp
  refine ⟨hmin, le_trans (le_of_eq hlen) hmin, ?_, hget, ?_⟩
  · rw [giga2Receive, List.length_append, hlen, List.length_cons, List.length_drop, hold]
    omega
  · exact le_trans (takeWhile_length_le_of_zero _ _ hget) hmin

/-- Witness for C10: a 60-byte reported value against a zeroed 50-byte
buffer. -/
theorem C10_receiveBufferSafe_witness :
    min 60 49 ≤ 49 ∧
    ((List.replicate 60 65).take (min 60 49)).length ≤ 49 ∧
    (giga2Receive (List.replicate 50 7) (List.replicate 60 65) 60).length = 50 ∧
    (giga2Receive (List.replicate 50 7) (List.replicate 60 65) 60).get? (min 60 49) =
      some 0 ∧
    ((giga2Receive (List.replicate 50 7) (List.replicate 60 65) 60).takeWhile
      (fun b => b != 0)).length ≤ 49 :=
  C10_receiveBufferSafe (List.replicate 50 7) (List.replicate 60 65) 60
    (by decide) (by decide)

/-! ## Motor command handling (GIGA_FORWARDER sketch of the
Force_Sensor_NRF file) -/

/-- Motor-related globals and output pins of the sketch. -/
structure MotorState where
  motorRun : Bool
  motorDir : Bool
  stepIntervalUs : ℕ
  stepLevel : Bool
  dirPin : Bool
  stepPin : Bool
  deriving Repr, DecidableEq

/-- `setDirection`: cache the direction and drive the DIR pin. -/
def setDirection (up : Bool) (st : MotorState) : MotorState :=
  { st with motorDir := up, dirPin := up }

/-- `setSpeedStepsPerSec` (lines 366-371): clamp into [50, 3000] and
store the toggle interval `1000000 / sps`. -/
def setSpeedStepsPerSec (sps : ℕ) (st : MotorState) : MotorState :=
  let s1 := if sps < 50 then 50 else sps
  let s2 := if s1 > 3000 then 3000 else s1
  { st with stepIntervalUs := 1000000 / s2 }

/-- `motorStartIfNeeded`: enable stepping when stopped. -/
def motorStartIfNeeded (st : MotorState) : MotorState :=
  if st.motorRun then st else { st with motorRun := true }

/-- `motorStop`: disable stepping and idle the STEP pin low. -/
def motorStop (st : MotorState) : MotorState :=
  { st with motorRun := false, stepPin := false, stepLevel := false }

/-- First-token extraction of `parseAndHandleCommand` (lines
389-397): consume up to 7 non-space characters, uppercasing each;
return the token and the rest of the line. -/
def extractTok : ℕ → List Char → List Char × List Char
  | _, [] => ([], [])
  | 0, l => ([], l)
  | i + 1, c :: cs =>
    if c = ' ' then ([], c :: cs)
    else
      let p := extractTok i cs
      (c.toUpper :: p.1, p.2)

/-- Sign-and-digits tail of `strtol`: optional sign then the leading
digit run. -/
def strtolNum (cs : List Char) : ℤ :=
  if cs.head? = some '-' then -(parseNatDigits (cs.tail.takeWhile Char.isDigit) : ℤ)
  else if cs.head? = some '+' then (parseNatDigits (cs.tail.takeWhile Char.isDigit) : ℤ)
  else (parseNatDigits (cs.takeWhile Char.isDigit) : ℤ)

/-- Model of `strtol(line, nullptr, 10)` for the command argument:
skip leading whitespace, then an optional sign and the leading digit
run.  C saturation of out-of-range values to LONG_MAX or LONG_MIN is
not modelled: at the only call site a positive value is clamped into
[50, 3000] and a non-positive one ignored, so the saturated and exact
values act identically. -/
def strtolM (cs : List Char) : ℤ :=
  strtolNum (cs.dropWhile Char.isWhitespace)

/-- Numeric argument of a command line after the first token: skip
spaces, yield 0 on end of line, else `strtol` the remainder (lines
399-403). -/
def cmdArg (afterTok : List Char) : ℤ :=
  let rest := afterTok.dropWhile (fun c => c = ' ')
  if rest = [] then 0 else strtolM rest

/-- `parseAndHandleCommand` (lines 389-420): match the uppercased
first token against UP, DOWN, STOP; UP and DOWN set the direction,
apply the speed only when the numeric argument is positive, and start
the motor; STOP halts it; anything else changes nothing. -/
def parseAndHandleCommand (line : List Char) (st : MotorState) : MotorState :=
  let p := extractTok 7 line
  if p.1 = ['U', 'P'] then
    motorStartIfNeeded
      (if 0 < cmdArg p.2 then
        setSpeedStepsPerSec (cmdArg p.2).toNat (setDirection true st)
       else setDirection true st)
  else if p.1 = ['D', 'O', 'W', 'N'] then
    motorStartIfNeeded
      (if 0 < cmdArg p.2 then
        setSpeedStepsPerSec (cmdArg p.2).toNat (setDirection false st)
       else setDirection false st)
  else if p.1 = ['S', 'T', 'O', 'P'] then
    motorStop st
  else st

/-- Boot values of the motor state (setup lines 422-429). -/
def motorBootState : MotorState :=
  ⟨false, true, 1000, false, false, false⟩

/-- Helper: starting the motor only sets the run flag. -/
theorem motorStartIfNeeded_eq (s : MotorState) :
    motorStartIfNeeded s = { s with motorRun := true } := by
  rw [motorStartIfNeeded]
  split
  · rename_i hr
    cases s
    simp_all
  · rfl

/-- Helper: the clamp of `setSpeedStepsPerSec` is `[50, 3000]`. -/
theorem setSpeedStepsPerSec_eq (sps : ℕ) (st : MotorState) :
    setSpeedStepsPerSec sps st =
      { st with stepIntervalUs := 1000000 / min 3000 (max 50 sps) } := by
  have hs : (if (if sps < 50 then 50 else sps) > 3000 then 3000
      else (if sps < 50 then 50 else sps)) = min 3000 (max 50 sps) := by
    split_ifs <;> omega
  show ({ st with stepIntervalUs := 1000000 /
    (if (if sps < 50 then 50 else sps) > 3000 then 3000
      else (if sps < 50 then 50 else sps)) } : MotorState) = _
  rw [hs]

/-- Helper: the uppercased token of a lowercase `up ` line. -/
theorem extractTok_up (l : List Char) :
    extractTok 7 ('u' :: 'p' :: ' ' :: l) = (['U', 'P'], ' ' :: l) := rfl

/-- Helper: the uppercased token of a lowercase `down ` line. -/
theorem extractTok_down (l : List Char) :
    extractTok 7 ('d' :: 'o' :: 'w' :: 'n' :: ' ' :: l) =
      (['D', 'O', 'W', 'N'], ' ' :: l) := rfl

/-- Helper: a digit character is not whitespace. -/
theorem isWhitespace_eq_false_of_isDigit (c : Char) (h : c.isDigit = true) :
    c.isWhitespace = false := by
  cases hw : c.isWhitespace
  · rfl
  · exfalso
    simp [Char.isWhitespace] at hw
    rcases hw with ((rfl | rfl) | rfl) | rfl <;> exact absurd h (by decide)

/-- Helper: a rendered number loses nothing to the whitespace skip. -/
theorem dropWhile_ws_fmtNat (n : ℕ) :
    (fmtNat n).dropWhile Char.isWhitespace = fmtNat n := by
  obtain ⟨c, cs, hcons, hdig⟩ := fmtNat_append_head n []
  rw [List.append_nil] at hcons
  rw [hcons, List.dropWhile_cons_of_neg
    (by simp [isWhitespace_eq_false_of_isDigit c hdig])]

/-- Helper: `strtolNum` on the `%lu` rendering of `n` gives `n`. -/
theorem strtolNum_fmtNat (n : ℕ) : strtolNum (fmtNat n) = (n : ℤ) := by
  obtain ⟨c, cs, hcons, hdig⟩ := fmtNat_append_head n []
  rw [List.append_nil] at hcons
  have h1 : c ≠ '-' := fun he => by rw [he] at hdig; exact absurd hdig (by decide)
  have h2 : c ≠ '+' := fun he => by rw [he] at hdig; exact absurd hdig (by decide)
  rw [strtolNum, hcons, if_neg (by simpa using h1), if_neg (by simpa using h2), ← hcons,
    takeWhile_all Char.isDigit (fmtNat n) (fmtNat_isDigit n), parseNatDigits_fmtNat]

/-- Helper: `strtol` on the `%lu` rendering of `n` gives back `n`. -/
theorem strtolM_fmtNat (n : ℕ) : strtolM (fmtNat n) = (n : ℤ) := by
  rw [strtolM, dropWhile_ws_fmtNat, strtolNum_fmtNat]

/-- Helper: dropping spaces ahead of a rendered number is the number. -/
theorem dropWhile_space_fmtNat (n : ℕ) :
    (' ' :: fmtNat n).dropWhile (fun c => c = ' ') = fmtNat n := by
  obtain ⟨c, cs, hcons, hdig⟩ := fmtNat_append_head n []
  rw [List.append_nil] at hcons
  have hc : c ≠ ' ' := fun he => by rw [he] at hdig; exact absurd hdig (by decide)
  rw [List.dropWhile]
  simp only [decide_True, hcons, List.dropWhile]
  simp [hc]

/-- Helper: the argument of a space-then-number tail is the number. -/
theorem cmdArg_space_fmtNat (n : ℕ) : cmdArg (' ' :: fmtNat n) = (n : ℤ) := by
  rw [cmdArg]
  simp only [dropWhile_space_fmtNat]
  rw [if_neg (fmtNat_ne_nil n), strtolM_fmtNat]

/-- Helper: further whitespace ahead of the number is skipped by
`strtol` itself, as in the source. -/
theorem cmdArg_tab_fmtNat (n : ℕ) :
    cmdArg (' ' :: '\t' :: fmtNat n) = (n : ℤ) := by
  rw [cmdArg]
  have hrest : (' ' :: '\t' :: fmtNat n).dropWhile (fun c => c = ' ')
      = '\t' :: fmtNat n := by
    simp [List.dropWhile_cons]
  simp only [hrest]
  rw [if_neg (List.cons_ne_nil _ _), strtolM,
    List.dropWhile_cons_of_pos (by decide), dropWhile_ws_fmtNat, strtolNum_fmtNat]

/-- Helper: a minus-led argument parses to the negative value. -/
theorem cmdArg_neg_fmtNat (n : ℕ) :
    cmdArg (' ' :: '-' :: fmtNat n) = -(n : ℤ) := by
  rw [cmdArg]
  have hrest : (' ' :: '-' :: fmtNat n).dropWhile (fun c => c = ' ')
      = '-' :: fmtNat n := by
    simp [List.dropWhile_cons]
  simp only [hrest]
  rw [if_neg (List.cons_ne_nil _ _), strtolM,
    List.dropWhile_cons_of_neg (by decide), strtolNum,
    if_pos (show ('-' :: fmtNat n).head? = some '-' from rfl)]
  simp only [List.tail_cons]
  rw [takeWhile_all Char.isDigit (fmtNat n) (fmtNat_isDigit n), parseNatDigits_fmtNat]

/-- C8: for every ASCII command line, the first token (up to 7
characters, uppercased, so matching is case-insensitive) drives the
dispatch: a token UP sets the direction up, starts the motor and,
exactly when the parsed second token is positive, sets the speed
clamped into [50, 3000] steps per second, leaving it unchanged when
the token is absent or non-positive; DOWN acts likewise with
direction down; STOP halts the motor and drives the step line low;
any other token changes nothing (no error response).  The argument
conjuncts tie the parsed value to the text: a numeric token (even
behind further whitespace, which strtol skips) parses to its value, a
minus-led token to the negative value, an absent token to 0. -/
theorem C8_motorCommands (st : MotorState) (line : List Char) (n : ℕ) :
    ((extractTok 7 line).1 = ['U', 'P'] →
      parseAndHandleCommand line st =
        { st with
            motorDir := true
            dirPin := true
            motorRun := true
            stepIntervalUs :=
              if 0 < cmdArg (extractTok 7 line).2 then
                1000000 / min 3000 (max 50 (cmdArg (extractTok 7 line).2).toNat)
              else st.stepIntervalUs }) ∧
    ((extractTok 7 line).1 = ['D', 'O', 'W', 'N'] →
      parseAndHandleCommand line st =
        { st with
            motorDir := false
            dirPin := false
            motorRun := true
            stepIntervalUs :=
              if 0 < cmdArg (extractTok 7 line).2 then
                1000000 / min 3000 (max 50 (cmdArg (extractTok 7 line).2).toNat)
              else st.stepIntervalUs }) ∧
    ((extractTok 7 line).1 = ['S', 'T', 'O', 'P'] →
      parseAndHandleCommand line st = motorStop st ∧
      (motorStop st).motorRun = false ∧ (motorStop st).stepPin = false) ∧
    ((extractTok 7 line).1 ≠ ['U', 'P'] → (extractTok 7 line).1 ≠ ['D', 'O', 'W', 'N'] →
      (extractTok 7 line).1 ≠ ['S', 'T', 'O', 'P'] →
      parseAndHandleCommand line st = st) ∧
    cmdArg (' ' :: fmtNat n) = (n : ℤ) ∧
    cmdArg (' ' :: '\t' :: fmtNat n) = (n : ℤ) ∧
    cmdArg (' ' :: '-' :: fmtNat n) = -(n : ℤ) ∧
    cmdArg [] = 0 := by
  refine ⟨?_, ?_, ?_, ?_, cmdArg_space_fmtNat n, cmdArg_tab_fmtNat n,
    cmdArg_neg_fmtNat n, rfl⟩
  · intro h
    simp only [parseAndHandleCommand]
    rw [h, if_pos rfl]
    by_cases hc : 0 < cmdArg (extractTok 7 line).2
    · rw [if_pos hc, if_pos hc, setSpeedStepsPerSec_eq, motorStartIfNeeded_eq]
      cases st
      rfl
    · rw [if_neg hc, if_neg hc, motorStartIfNeeded_eq]
      cases st
      rfl
  · intro h
    simp only [parseAndHandleCommand]
    rw [h, if_neg (show ¬(['D', 'O', 'W', 'N'] : List Char) = ['U', 'P'] from by decide),
      if_pos rfl]
    by_cases hc : 0 < cmdArg (extractTok 7 line).2
    · rw [if_pos hc, if_pos hc, setSpeedStepsPerSec_eq, motorStartIfNeeded_eq]
      cases st
      rfl
    · rw [if_neg hc, if_neg hc, motorStartIfNeeded_eq]
      cases st
      rfl
  · intro htok
    have h1 : (extractTok 7 line).1 ≠ ['U', 'P'] := by rw [htok]; decide
    have h2 : (extractTok 7 line).1 ≠ ['D', 'O', 'W', 'N'] := by rw [htok]; decide
    refine ⟨?_, rfl, rfl⟩
    rw [parseAndHandleCommand, if_neg h1, if_neg h2, if_pos htok]
  · intro h1 h2 h3
    rw [parseAndHandleCommand, if_neg h1, if_neg h2, if_neg h3]

/-- Witness for C8 at the documented command `UP 1200` from the boot
state, with the argument conjuncts taken at 5000. -/
theorem C8_motorCommands_witness :
    (extractTok 7 ('U' :: 'P' :: ' ' :: fmtNat 1200)).1 = ['U', 'P'] ∧
    parseAndHandleCommand ('U' :: 'P' :: ' ' :: fmtNat 1200) motorBootState =
      { motorBootState with
          motorDir := true
          dirPin := true
          motorRun := true
          stepIntervalUs :=
            if 0 < cmdArg (extractTok 7 ('U' :: 'P' :: ' ' :: fmtNat 1200)).2 then
              1000000 / min 3000
                (max 50 (cmdArg (extractTok 7 ('U' :: 'P' :: ' ' :: fmtNat 1200)).2).toNat)
            else motorBootState.stepIntervalUs } ∧
    cmdArg (' ' :: fmtNat 5000) = (5000 : ℤ) ∧
    cmdArg (' ' :: '\t' :: fmtNat 5000) = (5000 : ℤ) ∧
    cmdArg [] = 0 :=
  ⟨rfl,
   (C8_motorCommands motorBootState ('U' :: 'P' :: ' ' :: fmtNat 1200) 5000).1 rfl,
   (C8_motorCommands motorBootState ('U' :: 'P' :: ' ' :: fmtNat 1200) 5000).2.2.2.2.1,
   (C8_motorCommands motorBootState ('U' :: 'P' :: ' ' :: fmtNat 1200) 5000).2.2.2.2.2.1,
   (C8_motorCommands motorBootState ('U' :: 'P' :: ' ' :: fmtNat 1200) 5000).2.2.2.2.2.2.2⟩

/-! ## Force report payloads of the sensor sketches -/

/-- part_005 report (lines 125-133): `snprintf("%lu|%.1f")` of the
elapsed milliseconds and `abs(get_units(5) - baselineOffset)`. -/
def p5Payload (ms : ℕ) (scaled baseline : ℚ) : List Char :=
  fmtNat ms ++ '|' :: fmt1f |scaled - baseline|

/-- part_010 pounds (lines 66-71): `(raw - offset) / scale` with the
0.05 noise clamp; the sign is kept. -/
def p10Pounds (raw offset scale : ℚ) : ℚ :=
  let p := (raw - offset) / scale
  if |p| < 5 / 100 then 0 else p

/-- part_010 report (lines 73-85): `snprintf("%lu|%.2f")`. -/
def p10Payload (ms : ℕ) (pounds : ℚ) : List Char :=
  fmtNat ms ++ '|' :: fmt2f pounds

/-- Force_Sensor_NRF report (lines 282-286): `snprintf("%.1f")` of
`lastValidReading` alone — no elapsed-milliseconds field. -/
def nrfForcePayload (st : NrfState) : List Char :=
  fmt1f st.lastValidReading

/-- Checker for the claimed force-field shape: no minus sign anywhere
in the payload and exactly one character, a digit, after the final
dot. -/
def oneDecNonNeg (p : List Char) : Bool :=
  decide ('-' ∉ p) &&
    (match p.reverse with
     | d :: '.' :: _ => d.isDigit
     | _ => false)

/-- Helper: the `%.1f` rendering of a non-negative rational is integer
digits, a dot and one digit. -/
theorem fmt1f_nonneg_shape (q : ℚ) (h : 0 ≤ q) :
    ∃ a d, d < 10 ∧ fmt1f q = fmtNat a ++ '.' :: [Nat.digitChar d] := by
  refine ⟨(round (q * 10)).toNat / 10, (round (q * 10)).toNat % 10,
    Nat.mod_lt _ (by norm_num), ?_⟩
  rw [fmt1f, abs_of_nonneg h, if_neg (not_lt.mpr h), List.nil_append]

/-- Helper: a digits-dot-digit force field checks as one-decimal and
non-negative. -/
theorem oneDecNonNeg_forceOnly (a d : ℕ) (hd : d < 10) :
    oneDecNonNeg (fmtNat a ++ '.' :: [Nat.digitChar d]) = true := by
  rw [oneDecNonNeg, Bool.and_eq_true]
  constructor
  · rw [decide_eq_true_iff]
    intro hm
    rcases List.mem_append.mp hm with hm | hm
    · exact absurd (fmtNat_isDigit a '-' hm) (by decide)
    · rcases List.mem_cons.mp hm with hm | hm
      · cases hm
      · have he := List.mem_singleton.mp hm
        have h2 := isDigit_digitChar d hd
        rw [← he] at h2
        exact absurd h2 (by decide)
  · have hrev : (fmtNat a ++ '.' :: [Nat.digitChar d]).reverse
        = Nat.digitChar d :: '.' :: (fmtNat a).reverse := by
      simp
    rw [hrev]
    exact isDigit_digitChar d hd

/-- Helper: a full `<ms>|<digits>.<digit>` payload checks as
one-decimal and non-negative. -/
theorem oneDecNonNeg_payload (ms a d : ℕ) (hd : d < 10) :
    oneDecNonNeg (fmtNat ms ++ '|' :: (fmtNat a ++ '.' :: [Nat.digitChar d])) = true := by
  rw [oneDecNonNeg, Bool.and_eq_true]
  constructor
  · rw [decide_eq_true_iff]
    intro hm
    rcases List.mem_append.mp hm with hm | hm
    · exact absurd (fmtNat_isDigit ms '-' hm) (by decide)
    · rcases List.mem_cons.mp hm with hm | hm
      · cases hm
      · rcases List.mem_append.mp hm with hm | hm
        · exact absurd (fmtNat_isDigit a '-' hm) (by decide)
        · rcases List.mem_cons.mp hm with hm | hm
          · cases hm
          · have he := List.mem_singleton.mp hm
            have h2 := isDigit_digitChar d hd
            rw [← he] at h2
            exact absurd h2 (by decide)
  · have hrev : (fmtNat ms ++ '|' :: (fmtNat a ++ '.' :: [Nat.digitChar d])).reverse
        = Nat.digitChar d :: '.' :: ((fmtNat a).reverse ++ '|' :: (fmtNat ms).reverse) := by
      simp
    rw [hrev]
    exact isDigit_digitChar d hd

/-- Helper: the Force_Sensor_NRF clamp never yields a negative
display value. -/
theorem nrfClamp_nonneg (d : ℚ) : 0 ≤ nrfClamp d := by
  rw [nrfClamp]
  by_cases h1 : d < 0
  · simp only [if_pos h1]
    split_ifs <;> norm_num
  · simp only [if_neg h1]
    split_ifs
    · exact le_refl 0
    · exact not_lt.mp h1

/-- C9 (amended): the part_005 force report is `<ms>|<force>` with
the force field carrying exactly one decimal digit and no sign; the
Force_Sensor_NRF report carries the same one-decimal non-negative
force field but without the `<ms>|` prefix, and its transmitted value
stays non-negative across every conditioner step.  (part_010, by
contrast, uses two decimals and keeps the sign — see the
counterexample.) -/
theorem C9_forceFormat (ms : ℕ) (scaled baseline : ℚ) (st : NrfState) (raw : ℚ)
    (h : 0 ≤ st.lastValidReading) :
    oneDecNonNeg (p5Payload ms scaled baseline) = true ∧
    oneDecNonNeg (nrfForcePayload st) = true ∧
    0 ≤ (nrfStep st raw).lastValidReading := by
  refine ⟨?_, ?_, ?_⟩
  · obtain ⟨a, d, hd, hshape⟩ := fmt1f_nonneg_shape |scaled - baseline| (abs_nonneg _)
    rw [p5Payload, hshape]
    exact oneDecNonNeg_payload ms a d hd
  · obtain ⟨a, d, hd, hshape⟩ := fmt1f_nonneg_shape st.lastValidReading h
    rw [nrfForcePayload, hshape]
    exact oneDecNonNeg_forceOnly a d hd
  · rw [nrfStep]
    split_ifs
    · exact le_refl 0
    · exact nrfClamp_nonneg _

/-- Witness for C9 at a concrete sample. -/
theorem C9_forceFormat_witness :
    oneDecNonNeg (p5Payload 1234 17 2) = true ∧
    oneDecNonNeg (nrfForcePayload ⟨0, 0⟩) = true ∧
    0 ≤ (nrfStep ⟨0, 0⟩ 0).lastValidReading :=
  C9_forceFormat 1234 17 2 ⟨0, 0⟩ 0 (le_refl 0)

/-- Counterexample to C9 as stated: the part_010 sensor (cited by the
claim) transmits `100|-2.00` for a reading of -2 pounds (reachable
since its scale factor is negative and the 0.05 clamp only removes
tiny magnitudes): the force field is negative and carries two decimal
digits, not one. -/
theorem C9_p10_counterexample :
    p10Pounds 41535 0 (-41535 / 2) = -2 ∧
    oneDecNonNeg (p10Payload 100 (p10Pounds 41535 0 (-41535 / 2))) = false := by
  have hp : p10Pounds 41535 0 (-41535 / 2) = -2 := by
    norm_num [p10Pounds]
  have hfmt : fmt2f (-2) = '-' :: (fmtNat 2 ++
      '.' :: [Nat.digitChar 0, Nat.digitChar 0]) := by
    rw [fmt2f]
    have habs : |(-2 : ℚ)| * 100 = ((200 : ℕ) : ℚ) := by norm_num
    rw [habs, round_natCast, Int.toNat_natCast,
      if_pos (by norm_num : (-2 : ℚ) < 0)]
    norm_num
  refine ⟨hp, ?_⟩
  rw [p10Payload, hp, hfmt, oneDecNonNeg]
  have hm : '-' ∈ fmtNat 100 ++ '|' :: '-' :: (fmtNat 2 ++
      '.' :: [Nat.digitChar 0, Nat.digitChar 0]) :=
    List.mem_append_right _ (List.mem_cons_of_mem '|' (List.mem_cons_self '-' _))
  simp [hm]

end MSTD
